import Mathlib

/-!
# GC0308 sensor driver: register primitives, register-list sequencer, setters

A shallow embedding of `src/sensors/gc0308.c`.  The two-wire bus (`SCCB_Read`,
`SCCB_Write`), the scheduler (`vTaskDelay`) and the compiled-in tables of
`gc0308_regs.h` / `gc0308_settings.h` are not part of the driver file; the bus
is a parameter (`Bus`), the tables and constants are a parameter (`Settings`),
and every bus transaction and every task suspension is recorded in a log so
that "which writes were issued, in which order" is a statement about a list.
-/

namespace GC0308

/-! ## The environment of the driver -/

/-- One observable action of the driver on its environment. -/
inductive Event where
  | read (slv reg : Nat)
  | write (slv reg val : Nat)
  | delay (ticks : Nat)
  deriving DecidableEq

/-- The register bus client.  `SCCB_Read` yields the `int` the driver sees
(the byte read, or a negative code), `SCCB_Write` yields the status
(`0` on success); both may change the state `σ` of the bus. -/
structure Bus (σ : Type) where
  SCCB_Read : σ → Nat → Nat → Int × σ
  SCCB_Write : σ → Nat → Nat → Nat → Int × σ

/-- The state threaded through the driver: the bus and the log of actions. -/
structure World (σ : Type) where
  bus : σ
  log : List Event
  deriving DecidableEq

/-- Constants and tables of `gc0308_regs.h`, `gc0308_settings.h` and FreeRTOS
that the driver refers to by name. `sizeof_ptr` is `sizeof(uint8_t *)` on the
target. The two-column tables indexed with `sizeof(T) / 2` hold bytes, so that
`sizeof(T) / 2` is their number of rows. -/
structure Settings where
  REGLIST_TAIL : Nat
  REG_DLY : Nat
  RESET_RELATED : Nat
  portTICK_PERIOD_MS : Nat
  sizeof_ptr : Nat
  GC0308_DEFAULT_CONFIG : List (Nat × Nat)
  GC0308_HB_VB_STEPS : List (Nat × Nat)
  GC0308_AEC_EXP_LEVEL : List (Nat × Nat)
  GC0308_CIF_CROP : List (Nat × Nat)
  GC0308_QVGA_CROP : List (Nat × Nat)
  GC0308_QVGA_WINDOWING : List (Nat × Nat)

/-- The call `SCCB_Read(slv, reg)`: one bus read, logged. -/
def sccbRead {σ : Type} (B : Bus σ) (slv reg : Nat) (w : World σ) : Int × World σ :=
  ((B.SCCB_Read w.bus slv reg).1,
    { bus := (B.SCCB_Read w.bus slv reg).2, log := w.log ++ [Event.read slv reg] })

/-- The call `SCCB_Write(slv, reg, val)`: one bus write, logged. -/
def sccbWrite {σ : Type} (B : Bus σ) (slv reg val : Nat) (w : World σ) : Int × World σ :=
  ((B.SCCB_Write w.bus slv reg val).1,
    { bus := (B.SCCB_Write w.bus slv reg val).2, log := w.log ++ [Event.write slv reg val] })

/-- The call `vTaskDelay(ticks)`: one task suspension, logged; the bus is not touched. -/
def vTaskDelay {σ : Type} (ticks : Nat) (w : World σ) : World σ :=
  { bus := w.bus, log := w.log ++ [Event.delay ticks] }

/-! ## Register primitives (`gc0308.c`, lines 41-104) -/

/-- `read_reg` (REG_DEBUG_ON is not defined): the result of `SCCB_Read`. -/
def read_reg {σ : Type} (B : Bus σ) (slv reg : Nat) (w : World σ) : Int × World σ :=
  sccbRead B slv reg w

/-- `write_reg` (REG_DEBUG_ON is not defined): `value` is a `uint8_t`
parameter, so a wider argument is narrowed to its low 8 bits. -/
def write_reg {σ : Type} (B : Bus σ) (slv reg value : Nat) (w : World σ) : Int × World σ :=
  sccbWrite B slv reg (value % 256) w

/-- Bitwise complement of a 32-bit `int`, as a bit pattern. -/
def not32 (x : Nat) : Nat := (2 ^ 32 - 1) ^^^ (x % 2 ^ 32)

/-- The shift `x << n` on a 32-bit `int`.  C leaves a shift by 32 or more
undefined: `none`.  For a smaller count the bits shifted out of the 32-bit
word are dropped. -/
def shl32 (x n : Nat) : Option Nat :=
  if n < 32 then some ((x <<< n) % 2 ^ 32) else none

/-- The expression `(c_value & ~(mask << offset)) | ((value & mask) << offset)`
stored into the `uint8_t new_value`: the operands are promoted to 32-bit `int`
and the result is narrowed to 8 bits.  It has no value (`none`) when a shift
is undefined, that is for `offset` from 32 on. -/
def new_value (c_value offset mask value : Nat) : Option Nat :=
  match shl32 mask offset, shl32 (value &&& mask) offset with
  | some m, some v => some (((c_value &&& not32 m) ||| v) % 256)
  | _, _ => none

/-- `set_reg_bits`: read, return the read's code if it is negative, otherwise
narrow the byte, compute `new_value` and write it.  The result is `none` when
`new_value` is undefined. -/
def set_reg_bits {σ : Type} (B : Bus σ) (slv reg offset mask value : Nat) (w : World σ) :
    Option (Int × World σ) :=
  let r := read_reg B slv reg w
  if r.1 < 0 then some r
  else
    match new_value (r.1 % 256).toNat offset mask value with
    | none => none
    | some b => some (write_reg B slv reg b r.2)

/-- The loop of `write_regs`, with `regs` the entries from index `i` on and
`ret` the current status: it stops when `ret` is non-zero or the entry's
address is `REGLIST_TAIL`; a `REG_DLY` entry suspends the task for
`regs[i][1] / portTICK_PERIOD_MS` ticks, any other entry is written with
`write_reg`.  Reading past the end of the array gives `none`. -/
def write_regs_loop {σ : Type} (S : Settings) (B : Bus σ) (slv : Nat) :
    List (Nat × Nat) → Int → World σ → Option (Int × World σ)
  | [], ret, w => if ret ≠ 0 then some (ret, w) else none
  | e :: rest, ret, w =>
    if ret ≠ 0 then some (ret, w)
    else if e.1 = S.REGLIST_TAIL then some (ret, w)
    else if e.1 = S.REG_DLY then
      write_regs_loop S B slv rest ret (vTaskDelay (e.2 / S.portTICK_PERIOD_MS) w)
    else
      write_regs_loop S B slv rest (write_reg B slv e.1 e.2 w).1 (write_reg B slv e.1 e.2 w).2

/-- `write_regs`: the loop entered with `i = 0, ret = 0`. -/
def write_regs {σ : Type} (S : Settings) (B : Bus σ) (slv : Nat) (regs : List (Nat × Nat))
    (w : World σ) : Option (Int × World σ) :=
  write_regs_loop S B slv regs 0 w

/-! ## The sensor structure (`sensor.h`) -/

/-- Modelled from the spec: the declaration of the Configuration Status in
`sensor.h` is missing; it has the six tunables the spec lists and `init_status`
assigns, and the fields the driver never names are carried in `other`. -/
structure camera_status_t where
  brightness : Int
  contrast : Int
  saturation : Int
  ae_level : Int
  special_effect : Int
  wb_mode : Int
  other : List Int
  deriving DecidableEq

/-- Modelled from the spec: what a slot of the Capability Table can hold, one
of this driver's functions, some function of another driver, or nothing. -/
inductive Slot where
  | null
  | gc0308_reset
  | gc0308_init_status
  | gc0308_set_pixformat
  | gc0308_set_framesize
  | gc0308_set_contrast
  | foreign (id : Nat)
  deriving DecidableEq

/-- Modelled from the spec: the declaration of `sensor_t` in `sensor.h` is
missing; the Device Handle has the bus address, the Configuration Status, the
five slots that `gc0308_init` assigns and the remaining slots. -/
structure sensor_t where
  slv_addr : Nat
  status : camera_status_t
  reset : Slot
  init_status : Slot
  set_pixformat : Slot
  set_framesize : Slot
  set_contrast : Slot
  other_slots : List Slot
  deriving DecidableEq

inductive resolution_t where
  | VGA
  | CIF
  | QVGA
  deriving DecidableEq

inductive output_format_t where
  | YUV
  | RGB565
  | ONLY_Y
  deriving DecidableEq

/-- The value of `SCCB_ID` in `gc0308.h`. -/
def SCCB_ID : Nat := 0x21

/-! ## Setters (`gc0308.c`, lines 113-251) -/

/-- A loop `for (i = 0; i < sizeof(T) / 2; i++) SCCB_Write(slv, T[i][0], T[i][1]);`
over a table of byte pairs: the status of each write is dropped. -/
def write_table {σ : Type} (B : Bus σ) (slv : Nat) : List (Nat × Nat) → World σ → World σ
  | [], w => w
  | e :: rest, w => write_table B slv rest (sccbWrite B slv e.1 e.2 w).2

/-- `set_pixformat`: a `void` function, the status of every write is dropped. -/
def set_pixformat {σ : Type} (B : Bus σ) (sensor : sensor_t) (output_format : output_format_t)
    (w : World σ) : World σ :=
  let w := (sccbWrite B sensor.slv_addr 0xfe 0x00 w).2
  match output_format with
  | output_format_t.YUV => (sccbWrite B sensor.slv_addr 0xfe 0x00 w).2
  | output_format_t.RGB565 =>
    let w := (sccbWrite B sensor.slv_addr 0xfe 0x00 w).2
    (sccbWrite B sensor.slv_addr 0x24 0xa6 w).2
  | output_format_t.ONLY_Y =>
    let w := (sccbWrite B sensor.slv_addr 0xfe 0x00 w).2
    (sccbWrite B sensor.slv_addr 0x24 0xb1 w).2

/-- `set_vertical_flip`: bank selection, then the byte read from `0x14`
(narrowed to `uint8_t`) decides which of `0x10`, `0x12` is written back. -/
def set_vertical_flip {σ : Type} (B : Bus σ) (sensor : sensor_t) (w : World σ) : World σ :=
  let w := (sccbWrite B sensor.slv_addr 0xfe 0x00 w).2
  let r := sccbRead B sensor.slv_addr 0x14 w
  let value := (r.1 % 256).toNat
  if value = 0x12 then (sccbWrite B sensor.slv_addr 0x14 0x10 r.2).2
  else (sccbWrite B sensor.slv_addr 0x14 0x12 r.2).2

/-- `set_contrast`: nothing for `contrast = 0`, otherwise bank selection and
the write of `contrast` to `0xb3`. -/
def set_contrast {σ : Type} (B : Bus σ) (sensor : sensor_t) (contrast : Nat)
    (w : World σ) : World σ :=
  if contrast ≠ 0 then
    let w := (sccbWrite B sensor.slv_addr 0xfe 0x00 w).2
    (sccbWrite B sensor.slv_addr 0xb3 contrast w).2
  else w

/-- The row index of `set_AEC`, `uint8_t index = level + 1;`: the sum is
narrowed to 8 bits. -/
def aec_index (level : Nat) : Nat := (level + 1) % 256

/-- One iteration of the auto-exposure loop of `set_AEC` at loop counter `i`:
`index = aec_value[i] + 1` narrowed to `uint8_t`, two writes with destinations
from row `i` and values from row `index`, then `0x00 + i * 16` to `0xec`.
An index outside `aec_value` or outside the table gives `none`. -/
def set_AEC_zone {σ : Type} (S : Settings) (B : Bus σ) (sensor : sensor_t)
    (aec_value : List Nat) (i : Nat) (w : World σ) : Option (World σ) :=
  match aec_value[i]? with
  | none => none
  | some level =>
    let index := aec_index level
    match S.GC0308_AEC_EXP_LEVEL[i]?, S.GC0308_AEC_EXP_LEVEL[index]? with
    | some dst, some src =>
      let w := (sccbWrite B sensor.slv_addr dst.1 src.1 w).2
      let w := (sccbWrite B sensor.slv_addr dst.2 src.2 w).2
      some (sccbWrite B sensor.slv_addr 0xec (0x00 + i * 16) w).2
    | _, _ => none

/-- The loop `for (int i = ...; i < bound; i++)` of the auto branch, with
`count` iterations left and the counter at `i`. -/
def set_AEC_zones {σ : Type} (S : Settings) (B : Bus σ) (sensor : sensor_t)
    (aec_value : List Nat) : Nat → Nat → World σ → Option (World σ)
  | 0, _, w => some w
  | count + 1, i, w =>
    match set_AEC_zone S B sensor aec_value i w with
    | none => none
    | some w1 => set_AEC_zones S B sensor aec_value count (i + 1) w1

/-- `set_AEC`: the blanking-timing table, then either the zone loop bounded by
`sizeof(aec_value)`, the size of the pointer parameter, or the fixed branch
with `index = *aec_value + 1` narrowed to `uint8_t`. -/
def set_AEC {σ : Type} (S : Settings) (B : Bus σ) (sensor : sensor_t) (aec : Bool)
    (aec_value : List Nat) (w : World σ) : Option (World σ) :=
  let w := write_table B sensor.slv_addr S.GC0308_HB_VB_STEPS w
  if aec = true then
    set_AEC_zones S B sensor aec_value S.sizeof_ptr 0 w
  else
    match aec_value[0]? with
    | none => none
    | some level =>
      let index := aec_index level
      match S.GC0308_AEC_EXP_LEVEL[0]?, S.GC0308_AEC_EXP_LEVEL[index]? with
      | some dst, some src =>
        let w := (sccbWrite B sensor.slv_addr dst.1 src.1 w).2
        let w := (sccbWrite B sensor.slv_addr dst.2 src.2 w).2
        some (sccbWrite B sensor.slv_addr 0xec 0x00 w).2
      | _, _ => none

/-- `set_framesize`: a `void` function; bank selection, then nothing for VGA,
the CIF crop table, or for QVGA the windowing table (the crop branch is
guarded by the constant `0`). -/
def set_framesize {σ : Type} (S : Settings) (B : Bus σ) (sensor : sensor_t)
    (resolution : resolution_t) (w : World σ) : World σ :=
  let w := (sccbWrite B sensor.slv_addr 0xfe 0x00 w).2
  match resolution with
  | resolution_t.VGA => w
  | resolution_t.CIF => write_table B sensor.slv_addr S.GC0308_CIF_CROP w
  | resolution_t.QVGA =>
    if (0 : Nat) ≠ 0 then write_table B SCCB_ID S.GC0308_QVGA_CROP w
    else write_table B sensor.slv_addr S.GC0308_QVGA_WINDOWING w

/-! ## Capability-table operations and registration (`gc0308.c`, lines 269-375) -/

/-- `reset`: the software-reset write; on a non-zero status return it at once;
otherwise a settle delay, the default register list, and a second settle delay
when the list was applied with status `0`.  The sensor structure is only read. -/
def reset {σ : Type} (S : Settings) (B : Bus σ) (sensor : sensor_t) (w : World σ) :
    Option (Int × sensor_t × World σ) :=
  let r := write_reg B sensor.slv_addr S.RESET_RELATED 0x80 w
  if r.1 ≠ 0 then some (r.1, sensor, r.2)
  else
    let w := vTaskDelay (100 / S.portTICK_PERIOD_MS) r.2
    match write_regs S B sensor.slv_addr S.GC0308_DEFAULT_CONFIG w with
    | none => none
    | some (ret, w) =>
      if ret = 0 then some (ret, sensor, vTaskDelay (100 / S.portTICK_PERIOD_MS) w)
      else some (ret, sensor, w)

/-- `init_status`: six status fields set to zero, no bus traffic, returns `0`. -/
def init_status {σ : Type} (sensor : sensor_t) (w : World σ) : Int × sensor_t × World σ :=
  (0, { sensor with status := { sensor.status with
          brightness := 0, contrast := 0, saturation := 0,
          ae_level := 0, special_effect := 0, wb_mode := 0 } }, w)

/-- `gc0308_init`: five slots assigned, returns `0`. -/
def gc0308_init {σ : Type} (sensor : sensor_t) (w : World σ) : Int × sensor_t × World σ :=
  (0, { sensor with
          reset := Slot.gc0308_reset
          init_status := Slot.gc0308_init_status
          set_pixformat := Slot.gc0308_set_pixformat
          set_framesize := Slot.gc0308_set_framesize
          set_contrast := Slot.gc0308_set_contrast }, w)

/-! ## Bus stubs and vocabulary for the statements -/

/-- A bus whose reads and writes succeed and whose registers retain the last
byte written: the state maps a bus address and a register to its content. -/
def memBus : Bus (Nat → Nat → Nat) where
  SCCB_Read := fun m slv reg => (Int.ofNat (m slv reg), m)
  SCCB_Write := fun m slv reg val =>
    (0, fun s r => if s = slv ∧ r = reg then val else m s r)

/-- A bus stub that counts its transactions: the state is the number of
transactions so far; with `failAt = some k` transaction number `k` (from 0)
returns `code`, every other transaction succeeds (a read then yields the byte
`fill`); with `failAt = none` every transaction succeeds. -/
def stubBus (failAt : Option Nat) (code : Int) (fill : Nat) : Bus Nat where
  SCCB_Read := fun n _ _ => (if failAt = some n then code else Int.ofNat fill, n + 1)
  SCCB_Write := fun n _ _ _ => (if failAt = some n then code else 0, n + 1)

/-- Sample constants and tables for evaluating the driver on concrete inputs:
a 32-bit target with a 1 ms tick, delay opcode `0xffff`, end opcode `0x0000`. -/
def sampleSettings : Settings where
  REGLIST_TAIL := 0x0000
  REG_DLY := 0xffff
  RESET_RELATED := 0xfe
  portTICK_PERIOD_MS := 1
  sizeof_ptr := 4
  GC0308_DEFAULT_CONFIG := [(0xfe, 0x00), (0x0f, 0x00), (0xffff, 20), (0x01, 0x6a), (0x0000, 0x00)]
  GC0308_HB_VB_STEPS := [(0x01, 0x6a), (0x02, 0x70)]
  GC0308_AEC_EXP_LEVEL :=
    [(0xe4, 0xe5), (0x02, 0x58), (0x03, 0x84), (0x04, 0xb0), (0x05, 0xdc), (0x07, 0x08)]
  GC0308_CIF_CROP := [(0x46, 0x80), (0x47, 0x00)]
  GC0308_QVGA_CROP := [(0x46, 0x80)]
  GC0308_QVGA_WINDOWING := [(0x05, 0x00), (0x06, 0x00)]

/-- A sample sensor structure at bus address `0x21` with empty slots. -/
def sampleSensor : sensor_t where
  slv_addr := 0x21
  status := { brightness := 1, contrast := 2, saturation := 3, ae_level := 4,
              special_effect := 5, wb_mode := 6, other := [7] }
  reset := Slot.null
  init_status := Slot.null
  set_pixformat := Slot.null
  set_framesize := Slot.null
  set_contrast := Slot.null
  other_slots := [Slot.foreign 1]

/-- The action a register-list entry stands for: a task suspension for a
`REG_DLY` entry, otherwise a write of the low 8 bits of its value. -/
def entryEvent (S : Settings) (slv : Nat) (e : Nat × Nat) : Event :=
  if e.1 = S.REG_DLY then Event.delay (e.2 / S.portTICK_PERIOD_MS)
  else Event.write slv e.1 (e.2 % 256)

/-- The bus state after the writes of the ordinary entries of `regs`, in order. -/
def busAfter {σ : Type} (S : Settings) (B : Bus σ) (slv : Nat) : List (Nat × Nat) → σ → σ
  | [], s => s
  | e :: rest, s =>
    if e.1 = S.REG_DLY then busAfter S B slv rest s
    else busAfter S B slv rest (B.SCCB_Write s slv e.1 (e.2 % 256)).2

/-- Every write of an ordinary entry of `regs`, issued in order from bus state
`s`, returns status `0`. -/
def writesSucceed {σ : Type} (S : Settings) (B : Bus σ) (slv : Nat) :
    List (Nat × Nat) → σ → Prop
  | [], _ => True
  | e :: rest, s =>
    if e.1 = S.REG_DLY then writesSucceed S B slv rest s
    else (B.SCCB_Write s slv e.1 (e.2 % 256)).1 = 0 ∧
      writesSucceed S B slv rest (B.SCCB_Write s slv e.1 (e.2 % 256)).2

/-- The writes of a log, as (register, value) pairs, in order. -/
def writesOf : List Event → List (Nat × Nat)
  | [] => []
  | Event.write _ reg val :: rest => (reg, val) :: writesOf rest
  | _ :: rest => writesOf rest

/-- The task suspensions of a log, in ticks, in order. -/
def delaysOf : List Event → List Nat
  | [] => []
  | Event.delay t :: rest => t :: delaysOf rest
  | _ :: rest => delaysOf rest

/-- The values written to register `reg` in a log, in order. -/
def writesTo (reg : Nat) : List Event → List Nat
  | [] => []
  | Event.write _ r val :: rest => if r = reg then val :: writesTo reg rest else writesTo reg rest
  | _ :: rest => writesTo reg rest

/-- Sample settings whose exposure table has 257 rows, so that row 256 exists
and differs from row 0. -/
def wideSettings : Settings :=
  { sampleSettings with
      GC0308_AEC_EXP_LEVEL := List.replicate 256 (0xe4, 0xe5) ++ [(0x11, 0x22)] }

/-- The byte that the last ordinary entry of `regs` addressed to register
`reg` writes there, if there is such an entry. -/
def lastWrite (S : Settings) (reg : Nat) : List (Nat × Nat) → Option Nat
  | [] => none
  | e :: rest =>
    match lastWrite S reg rest with
    | some v => some v
    | none => if e.1 ≠ S.REG_DLY ∧ e.1 = reg then some (e.2 % 256) else none

/-- The start of a run: a bus state and an empty log. -/
def World.start {σ : Type} (s : σ) : World σ := { bus := s, log := [] }

/-! ## Bit-level facts about `new_value` -/

/-- For a shift count below 32 `new_value` is defined. -/
theorem new_value_of_lt (c offset mask value : Nat) (h : offset < 32) :
    new_value c offset mask value =
      some (((c &&& not32 ((mask <<< offset) % 2 ^ 32)) |||
        (((value &&& mask) <<< offset) % 2 ^ 32)) % 256) := by
  simp [new_value, shl32, h]

/-- From a shift count of 32 on `new_value` is undefined. -/
theorem new_value_undefined (c offset mask value : Nat) (h : 32 ≤ offset) :
    new_value c offset mask value = none := by
  have h2 : ¬ offset < 32 := by omega
  simp [new_value, shl32, h2]

/-- A defined `new_value` comes from a shift count below 32. -/
theorem new_value_defined (c offset mask value b : Nat)
    (hb : new_value c offset mask value = some b) :
    offset < 32 ∧
    b = ((c &&& not32 ((mask <<< offset) % 2 ^ 32)) |||
      (((value &&& mask) <<< offset) % 2 ^ 32)) % 256 := by
  by_cases h : offset < 32
  · rw [new_value_of_lt c offset mask value h] at hb
    exact ⟨h, (Option.some.inj hb).symm⟩
  · rw [new_value_undefined c offset mask value (by omega)] at hb
    exact Option.noConfusion hb

theorem new_value_testBit (c offset mask value b i : Nat)
    (hb : new_value c offset mask value = some b) :
    b.testBit i =
      (decide (i < 8) && ((c.testBit i && !(mask <<< offset).testBit i) ||
        ((value &&& mask) <<< offset).testBit i)) := by
  rw [(new_value_defined c offset mask value b hb).2]
  unfold not32
  rw [show (256 : Nat) = 2 ^ 8 from rfl, Nat.testBit_mod_two_pow]
  by_cases h : i < 8
  · have h32 : i < 32 := by omega
    simp only [h, h32, decide_True, Bool.true_and, Nat.testBit_or, Nat.testBit_and,
      Nat.testBit_xor, Nat.testBit_two_pow_sub_one, Nat.testBit_mod_two_pow, Bool.true_xor]
  · simp [h]

theorem new_value_lt (c offset mask value b : Nat)
    (hb : new_value c offset mask value = some b) : b < 256 := by
  rw [(new_value_defined c offset mask value b hb).2]
  omega

theorem new_value_field (c offset mask value b : Nat)
    (hb : new_value c offset mask value = some b) (h : mask <<< offset < 256) :
    (b >>> offset) &&& mask = value &&& mask := by
  apply Nat.eq_of_testBit_eq
  intro j
  rw [Nat.testBit_and, Nat.testBit_shiftRight, new_value_testBit c offset mask value b _ hb,
    Nat.testBit_and]
  by_cases hm : mask.testBit j
  · have hbit : (mask <<< offset).testBit (offset + j) = true := by
      rw [Nat.testBit_shiftLeft]; simp [hm]
    have hlt : offset + j < 8 := by
      by_contra hge
      have : (mask <<< offset).testBit (offset + j) = false := by
        apply Nat.testBit_lt_two_pow
        calc mask <<< offset < 2 ^ 8 := h
          _ ≤ 2 ^ (offset + j) := Nat.pow_le_pow_right (by norm_num) (by omega)
      rw [this] at hbit; exact Bool.noConfusion hbit
    simp [hm, hlt, hbit, Nat.testBit_shiftLeft, Nat.testBit_and]
  · simp [hm]

/-- On the retentive bus, for a shift count below 32, `set_reg_bits` returns,
and `read_reg` of the same register then reads back `new_value` of the old
content. -/
theorem set_reg_bits_readback (m : Nat → Nat → Nat) (log : List Event)
    (slv r offset mask value : Nat) (hold : m slv r < 256) (hoff : offset < 32) :
    ∃ (res : Int × World (Nat → Nat → Nat)) (b : Nat),
      new_value (m slv r) offset mask value = some b ∧
      set_reg_bits memBus slv r offset mask value { bus := m, log := log } = some res ∧
      (read_reg memBus slv r res.2).1 = (b : Int) := by
  have hnn : ¬ ((m slv r : Nat) : Int) < 0 := by omega
  have hcast : (((m slv r : Nat) : Int) % 256).toNat = m slv r := by omega
  have hdef := new_value_of_lt (m slv r) offset mask value hoff
  have hmod : ∀ b : Nat, new_value (m slv r) offset mask value = some b → b % 256 = b :=
    fun b hb => Nat.mod_eq_of_lt (new_value_lt _ _ _ _ b hb)
  refine ⟨write_reg memBus slv r
      (((m slv r &&& not32 ((mask <<< offset) % 2 ^ 32)) |||
        (((value &&& mask) <<< offset) % 2 ^ 32)) % 256)
      (read_reg memBus slv r { bus := m, log := log }).2, _, hdef, ?_, ?_⟩
  · simp [set_reg_bits, read_reg, sccbRead, memBus, hcast, hnn, hdef]
  · have := hmod _ hdef
    simp [read_reg, write_reg, sccbRead, sccbWrite, memBus, this]

/-! ## C1: read-modify-write of a bit field -/

/-- C1, as stated, fails where the field does not fit the byte: with
old content `0`, offset `4`, mask `0xFF` and value `0xFF`, the byte read back
after `set_reg_bits` is `0xF0`, and `(0xF0 >> 4) & 0xFF = 0x0F`, not
`0xFF & 0xFF`. -/
theorem set_reg_bits_field_overflow :
    (set_reg_bits memBus 0x21 0x14 4 0xFF 0xFF (World.start (fun _ _ => 0))).map
      (fun res => (read_reg memBus 0x21 0x14 res.2).1) = some 0xF0 ∧
    (0xF0 >>> 4) &&& 0xFF ≠ 0xFF &&& 0xFF := by
  constructor
  · rfl
  · decide

/-- C1 (amended): on a bus whose reads and writes succeed and whose registers
retain the last byte written, for every register holding a byte `old`, every
offset below 32 (the width of `int`; C leaves a larger shift undefined) and
every mask and value, `set_reg_bits` returns and a following `read_reg` yields
a byte `b` whose bits outside `mask << offset` are those of `old`, whose bits
inside the field are those of `(value & mask) << offset`, and, when
`mask << offset` fits in the byte, `(b >> offset) & mask = value & mask`. -/
theorem set_reg_bits_then_read (m : Nat → Nat → Nat) (log : List Event)
    (slv r offset mask value : Nat) (hold : m slv r < 256) (hoff : offset < 32) :
    ∃ (res : Int × World (Nat → Nat → Nat)) (b : Nat),
      set_reg_bits memBus slv r offset mask value { bus := m, log := log } = some res ∧
      (read_reg memBus slv r res.2).1 = (b : Int) ∧
      b < 256 ∧
      (∀ i, i < 8 → (mask <<< offset).testBit i = false → b.testBit i = (m slv r).testBit i) ∧
      (∀ i, i < 8 → (mask <<< offset).testBit i = true →
        b.testBit i = ((value &&& mask) <<< offset).testBit i) ∧
      (mask <<< offset < 256 → (b >>> offset) &&& mask = value &&& mask) := by
  obtain ⟨res, b, hb, hrun, hread⟩ := set_reg_bits_readback m log slv r offset mask value hold hoff
  refine ⟨res, b, hrun, hread, new_value_lt _ _ _ _ b hb, ?_, ?_, new_value_field _ _ _ _ b hb⟩
  · intro i hi hout
    have hz : ((value &&& mask) <<< offset).testBit i = false := by
      rw [Nat.testBit_shiftLeft] at hout ⊢
      rw [Nat.testBit_and]
      by_cases hge : offset ≤ i
      · simp only [hge, ge_iff_le, decide_True, Bool.true_and] at hout ⊢
        simp [hout]
      · simp [hge]
    simp [new_value_testBit _ _ _ _ b i hb, hi, hout, hz]
  · intro i hi hin
    simp [new_value_testBit _ _ _ _ b i hb, hi, hin]

theorem set_reg_bits_then_read_witness :
    ∃ (res : Int × World (Nat → Nat → Nat)) (b : Nat),
      set_reg_bits memBus 0x21 0x14 1 0x03 0x02 { bus := fun _ _ => 0x91, log := [] }
        = some res ∧
      (read_reg memBus 0x21 0x14 res.2).1 = (b : Int) ∧
      (b >>> 1) &&& 0x03 = 0x02 &&& 0x03 := by
  obtain ⟨res, b, hrun, hb, _, _, _, hfield⟩ :=
    set_reg_bits_then_read (fun _ _ => 0x91) [] 0x21 0x14 1 0x03 0x02 (by decide) (by decide)
  exact ⟨res, b, hrun, hb, hfield (by decide)⟩

/-! ## The register-list sequencer -/

/-- A prefix without end opcode whose writes all succeed is consumed entirely:
each entry contributes its action to the log, and the loop continues with
status `0` on the remaining entries. -/
theorem write_regs_loop_consumes {σ : Type} (S : Settings) (B : Bus σ) (slv : Nat)
    (pre rest : List (Nat × Nat)) :
    ∀ (w : World σ), (∀ e ∈ pre, e.1 ≠ S.REGLIST_TAIL) → writesSucceed S B slv pre w.bus →
      write_regs_loop S B slv (pre ++ rest) 0 w =
        write_regs_loop S B slv rest 0
          { bus := busAfter S B slv pre w.bus, log := w.log ++ pre.map (entryEvent S slv) } := by
  induction pre with
  | nil => intro w _ _; simp [busAfter]
  | cons e pre ih =>
    intro w hpre hsucc
    have he : e.1 ≠ S.REGLIST_TAIL := hpre e (List.mem_cons_self _ _)
    have hpre2 : ∀ x ∈ pre, x.1 ≠ S.REGLIST_TAIL := fun x hx => hpre x (List.mem_cons_of_mem _ hx)
    by_cases hd : e.1 = S.REG_DLY
    · have hs2 : writesSucceed S B slv pre w.bus := by simpa [writesSucceed, hd] using hsucc
      have hdt : S.REG_DLY ≠ S.REGLIST_TAIL := hd ▸ he
      have step : write_regs_loop S B slv (e :: (pre ++ rest)) 0 w =
          write_regs_loop S B slv (pre ++ rest) 0 (vTaskDelay (e.2 / S.portTICK_PERIOD_MS) w) := by
        simp [write_regs_loop, hd, hdt]
      rw [List.cons_append, step, ih (vTaskDelay (e.2 / S.portTICK_PERIOD_MS) w) hpre2 hs2]
      simp [vTaskDelay, busAfter, entryEvent, hd]
    · have hs : (B.SCCB_Write w.bus slv e.1 (e.2 % 256)).1 = 0 ∧
          writesSucceed S B slv pre (B.SCCB_Write w.bus slv e.1 (e.2 % 256)).2 := by
        simpa [writesSucceed, hd] using hsucc
      have hret : (write_reg B slv e.1 e.2 w).1 = 0 := hs.1
      have step : write_regs_loop S B slv (e :: (pre ++ rest)) 0 w =
          write_regs_loop S B slv (pre ++ rest) 0 (write_reg B slv e.1 e.2 w).2 := by
        simp [write_regs_loop, hd, he, hret]
      rw [List.cons_append, step, ih (write_reg B slv e.1 e.2 w).2 hpre2 hs.2]
      simp [write_reg, sccbWrite, busAfter, entryEvent, hd]

/-- On a bus whose writes all return `0`, every list has `writesSucceed`. -/
theorem writesSucceed_of_healthy {σ : Type} (S : Settings) (B : Bus σ) (slv : Nat)
    (hok : ∀ s a r v, (B.SCCB_Write s a r v).1 = 0) (regs : List (Nat × Nat)) :
    ∀ s, writesSucceed S B slv regs s := by
  induction regs with
  | nil => intro s; simp [writesSucceed]
  | cons e regs ih =>
    intro s
    by_cases hd : e.1 = S.REG_DLY
    · simpa [writesSucceed, hd] using ih s
    · simpa [writesSucceed, hd] using ⟨hok _ _ _ _, ih _⟩

/-- The writes among the actions of a list are its ordinary entries, in order,
each with the low 8 bits of its value. -/
theorem writesOf_entryEvents (S : Settings) (slv : Nat) (regs : List (Nat × Nat)) :
    writesOf (regs.map (entryEvent S slv)) =
      (regs.filter (fun e => decide (e.1 ≠ S.REG_DLY))).map (fun e => (e.1, e.2 % 256)) := by
  induction regs with
  | nil => simp [writesOf]
  | cons e regs ih =>
    by_cases hd : e.1 = S.REG_DLY
    · simp [entryEvent, writesOf, hd, ih]
    · simp [entryEvent, writesOf, hd, ih]

/-- The task suspensions among the actions of a list are its delay entries, in
order, each for its value divided by the tick period. -/
theorem delaysOf_entryEvents (S : Settings) (slv : Nat) (regs : List (Nat × Nat)) :
    delaysOf (regs.map (entryEvent S slv)) =
      (regs.filter (fun e => decide (e.1 = S.REG_DLY))).map
        (fun e => e.2 / S.portTICK_PERIOD_MS) := by
  induction regs with
  | nil => simp [delaysOf]
  | cons e regs ih =>
    by_cases hd : e.1 = S.REG_DLY
    · simp [entryEvent, delaysOf, hd, ih]
    · simp [entryEvent, delaysOf, hd, ih]

/-- With a non-zero status the loop stops at once, whatever entries remain. -/
theorem write_regs_loop_stop {σ : Type} (S : Settings) (B : Bus σ) (slv : Nat)
    (regs : List (Nat × Nat)) (ret : Int) (w : World σ) (h : ret ≠ 0) :
    write_regs_loop S B slv regs ret w = some (ret, w) := by
  cases regs <;> simp [write_regs_loop, h]

/-- At the end opcode the loop stops with the status it has. -/
theorem write_regs_loop_tail {σ : Type} (S : Settings) (B : Bus σ) (slv : Nat)
    (x : Nat) (rest : List (Nat × Nat)) (w : World σ) :
    write_regs_loop S B slv ((S.REGLIST_TAIL, x) :: rest) 0 w = some (0, w) := by
  simp [write_regs_loop]

/-! ## C2: writes in list order, delays without bus traffic -/

/-- C2, as stated, fails for an entry whose 16-bit value exceeds a byte: for
the list `(0x10, 0x1FF), END` on a bus whose writes succeed, the one write
issued carries `0xFF`, not the entry's value `0x1FF`. -/
theorem write_regs_value_narrowed :
    (write_regs sampleSettings (stubBus none 0 0) 0x21 [(0x10, 0x1FF), (0x0000, 0)]
        (World.start 0)).map (fun r => (r.1, r.2.log))
      = some (0, [Event.write 0x21 0x10 0xFF]) ∧
    Event.write 0x21 0x10 0xFF ≠ Event.write 0x21 0x10 0x1FF := by
  decide

/-- C2 (amended): on a bus on which all writes succeed, for every register
list with an END entry, `write_regs` returns `0` and appends to the log exactly
one action per entry before the first END, in list order: for an ordinary entry
one bus write to its address with the low 8 bits of its value (the value itself
when it is a byte), for a DELAY entry no bus write but one task suspension for
its value (milliseconds) divided by the tick period; so the writes are the
ordinary entries in order, and a list without DELAY entry has no suspension. -/
theorem write_regs_healthy_bus {σ : Type} (S : Settings) (B : Bus σ) (slv : Nat)
    (pre rest : List (Nat × Nat)) (x : Nat) (w : World σ)
    (hok : ∀ s a r v, (B.SCCB_Write s a r v).1 = 0)
    (hpre : ∀ e ∈ pre, e.1 ≠ S.REGLIST_TAIL) :
    ∃ w1 : World σ,
      write_regs S B slv (pre ++ (S.REGLIST_TAIL, x) :: rest) w = some (0, w1) ∧
      w1.log = w.log ++ pre.map (entryEvent S slv) ∧
      writesOf (pre.map (entryEvent S slv)) =
        (pre.filter (fun e => decide (e.1 ≠ S.REG_DLY))).map (fun e => (e.1, e.2 % 256)) ∧
      delaysOf (pre.map (entryEvent S slv)) =
        (pre.filter (fun e => decide (e.1 = S.REG_DLY))).map
          (fun e => e.2 / S.portTICK_PERIOD_MS) ∧
      ((∀ e ∈ pre, e.1 ≠ S.REG_DLY) → delaysOf (pre.map (entryEvent S slv)) = []) := by
  refine ⟨{ bus := busAfter S B slv pre w.bus, log := w.log ++ pre.map (entryEvent S slv) },
    ?_, rfl, writesOf_entryEvents S slv pre, delaysOf_entryEvents S slv pre, ?_⟩
  · unfold write_regs
    rw [write_regs_loop_consumes S B slv pre _ w hpre (writesSucceed_of_healthy S B slv hok pre _),
      write_regs_loop_tail]
  · intro hnd
    rw [delaysOf_entryEvents, List.filter_eq_nil_iff.mpr]
    · rfl
    · intro e he
      simpa using hnd e he

theorem write_regs_healthy_bus_witness :
    ∃ w1 : World Nat,
      write_regs sampleSettings (stubBus none 0 0) 0x21
        [(0xfe, 0x00), (0xffff, 20), (0x0f, 0x1a), (0x0000, 0), (0x01, 0x6a)] (World.start 5)
        = some (0, w1) ∧
      w1.log = [Event.write 0x21 0xfe 0x00, Event.delay 20, Event.write 0x21 0x0f 0x1a] := by
  obtain ⟨w1, h1, h2, _⟩ :=
    write_regs_healthy_bus sampleSettings (stubBus none 0 0) 0x21
      [(0xfe, 0x00), (0xffff, 20), (0x0f, 0x1a)] [(0x01, 0x6a)] 0 (World.start 5)
      (fun _ _ _ _ => rfl) (by decide)
  exact ⟨w1, h1, h2⟩

/-! ## C3: fail-fast on the first failing write -/

/-- C3: for every register list and every bus stub, let `pre` be the entries
before entry `e`, none of them END, whose writes all succeed.  If `e` is an
ordinary entry whose write fails, `write_regs` returns exactly that write's
status, and the log ends with that write: no write and no delay for any later
entry.  If instead `e` is the END entry (no write failed), it returns `0`. -/
theorem write_regs_first_error {σ : Type} (S : Settings) (B : Bus σ) (slv : Nat)
    (pre rest : List (Nat × Nat)) (e : Nat × Nat) (w : World σ)
    (hpre : ∀ x ∈ pre, x.1 ≠ S.REGLIST_TAIL)
    (hsucc : writesSucceed S B slv pre w.bus) :
    (e.1 ≠ S.REGLIST_TAIL → e.1 ≠ S.REG_DLY →
      (B.SCCB_Write (busAfter S B slv pre w.bus) slv e.1 (e.2 % 256)).1 ≠ 0 →
      write_regs S B slv (pre ++ e :: rest) w =
        some ((B.SCCB_Write (busAfter S B slv pre w.bus) slv e.1 (e.2 % 256)).1,
          { bus := (B.SCCB_Write (busAfter S B slv pre w.bus) slv e.1 (e.2 % 256)).2,
            log := w.log ++ pre.map (entryEvent S slv) ++ [Event.write slv e.1 (e.2 % 256)] }))
    ∧ (e.1 = S.REGLIST_TAIL →
      write_regs S B slv (pre ++ e :: rest) w =
        some (0, { bus := busAfter S B slv pre w.bus,
                   log := w.log ++ pre.map (entryEvent S slv) })) := by
  unfold write_regs
  rw [write_regs_loop_consumes S B slv pre _ w hpre hsucc]
  constructor
  · intro ht hd hfail
    have hfail1 : (write_reg B slv e.1 e.2
        { bus := busAfter S B slv pre w.bus, log := w.log ++ pre.map (entryEvent S slv) }).1 ≠ 0 :=
      hfail
    have step : write_regs_loop S B slv (e :: rest) 0
        { bus := busAfter S B slv pre w.bus, log := w.log ++ pre.map (entryEvent S slv) } =
        write_regs_loop S B slv rest
          (write_reg B slv e.1 e.2
            { bus := busAfter S B slv pre w.bus, log := w.log ++ pre.map (entryEvent S slv) }).1
          (write_reg B slv e.1 e.2
            { bus := busAfter S B slv pre w.bus, log := w.log ++ pre.map (entryEvent S slv) }).2 := by
      simp [write_regs_loop, ht, hd]
    rw [step, write_regs_loop_stop S B slv rest _ _ hfail1]
    simp [write_reg, sccbWrite]
  · intro ht
    obtain ⟨a, v⟩ := e
    simp only at ht
    subst ht
    exact write_regs_loop_tail S B slv v rest _

theorem write_regs_first_error_witness :
    write_regs sampleSettings (stubBus (some 1) (-7) 0) 0x21
        [(0xfe, 0x00), (0x0f, 0x00), (0xffff, 20), (0x01, 0x6a), (0x0000, 0x00)] (World.start 0)
      = some (-7, { bus := 2, log := [Event.write 0x21 0xfe 0x00, Event.write 0x21 0x0f 0x00] })
    ∧ write_regs sampleSettings (stubBus (some 1) (-7) 0) 0x21
        [(0xfe, 0x00), (0x0000, 0x00), (0x01, 0x6a)] (World.start 0)
      = some (0, { bus := 1, log := [Event.write 0x21 0xfe 0x00] }) :=
  ⟨(write_regs_first_error sampleSettings (stubBus (some 1) (-7) 0) 0x21 [(0xfe, 0x00)]
      [(0xffff, 20), (0x01, 0x6a), (0x0000, 0x00)] (0x0f, 0x00) (World.start 0)
      (by decide) (by simp [writesSucceed, sampleSettings, stubBus, World.start])).1
      (by decide) (by decide) (by decide),
   (write_regs_first_error sampleSettings (stubBus (some 1) (-7) 0) 0x21 [(0xfe, 0x00)]
      [(0x01, 0x6a)] (0x0000, 0x00) (World.start 0)
      (by decide) (by simp [writesSucceed, sampleSettings, stubBus, World.start])).2 rfl⟩

/-! ## The exposure controller -/

/-- A table loop appends one write per row, in order. -/
theorem write_table_log {σ : Type} (B : Bus σ) (slv : Nat) (t : List (Nat × Nat)) :
    ∀ w : World σ, (write_table B slv t w).log =
      w.log ++ t.map (fun e => Event.write slv e.1 e.2) := by
  induction t with
  | nil => intro w; simp [write_table]
  | cons e t ih => intro w; simp [write_table, ih, sccbWrite]

/-- C4: evaluation of the auto branch on the 32-bit target
(`sizeof(aec_value) = 4`).  For the three zones `[0, 1, 2]` the loop asks for a
fourth zone, `aec_value[3]`, which the array does not have; for five zones
`[0, 1, 2, 0, 0]` it performs four iterations, with timing writes
`0, 16, 32, 48`, not five. -/
theorem set_AEC_auto_bound_is_pointer_size :
    set_AEC_zones sampleSettings (stubBus none 0 0) sampleSensor [0, 1, 2] 3 0 (World.start 0)
      ≠ none ∧
    set_AEC_zone sampleSettings (stubBus none 0 0) sampleSensor [0, 1, 2] 3 (World.start 0)
      = none ∧
    (set_AEC sampleSettings (stubBus none 0 0) sampleSensor true [0, 1, 2] (World.start 0)).map
      (fun w => w.log) = none ∧
    (set_AEC sampleSettings (stubBus none 0 0) sampleSensor true [0, 1, 2, 0, 0]
      (World.start 0)).map (fun w => writesTo 0xec w.log) = some [0, 16, 32, 48] := by
  decide

/-! ## C5: fixed exposure -/

set_option maxRecDepth 8192

/-- C5, as stated, fails at level 255: with an exposure table of 257 rows the
index `255 + 1` is narrowed to `0`, so the two values written are those of row
0 (`0xe4`, `0xe5`), not those of row 256 (`0x11`, `0x22`). -/
theorem set_AEC_fixed_level_255 :
    wideSettings.GC0308_AEC_EXP_LEVEL[255 + 1]? = some (0x11, 0x22) ∧
    (set_AEC wideSettings (stubBus none 0 0) sampleSensor false [255] (World.start 0)).map
      (fun w => w.log)
      = some [Event.write 0x21 0x01 0x6a, Event.write 0x21 0x02 0x70,
          Event.write 0x21 0xe4 0xe4, Event.write 0x21 0xe5 0xe5, Event.write 0x21 0xec 0] := by
  constructor
  · rfl
  · rfl

/-- C5 (amended): for every exposure level up to 254 whose row `level + 1`
exists in the exposure table (row 0 existing too), `set_AEC` in fixed mode
issues, after the writes of the blanking-timing table, exactly three further
bus writes: byte 0 of `ExposureTable[level+1]` to the address
`ExposureTable[0][0]`, byte 1 of it to `ExposureTable[0][1]`, and `0` to
register `0xec`. -/
theorem set_AEC_fixed {σ : Type} (S : Settings) (B : Bus σ) (sensor : sensor_t)
    (level : Nat) (more : List Nat) (w : World σ) (dst src : Nat × Nat)
    (hlevel : level < 255)
    (hdst : S.GC0308_AEC_EXP_LEVEL[0]? = some dst)
    (hsrc : S.GC0308_AEC_EXP_LEVEL[level + 1]? = some src) :
    ∃ w1 : World σ,
      set_AEC S B sensor false (level :: more) w = some w1 ∧
      w1.log = w.log ++
        S.GC0308_HB_VB_STEPS.map (fun e => Event.write sensor.slv_addr e.1 e.2) ++
        [Event.write sensor.slv_addr dst.1 src.1, Event.write sensor.slv_addr dst.2 src.2,
          Event.write sensor.slv_addr 0xec 0] := by
  have hidx : aec_index level = level + 1 := Nat.mod_eq_of_lt (by omega)
  have hrun : set_AEC S B sensor false (level :: more) w =
      some (sccbWrite B sensor.slv_addr 0xec 0x00
        (sccbWrite B sensor.slv_addr dst.2 src.2
          (sccbWrite B sensor.slv_addr dst.1 src.1
            (write_table B sensor.slv_addr S.GC0308_HB_VB_STEPS w)).2).2).2 := by
    simp only [set_AEC, Bool.false_eq_true, if_false, List.getElem?_cons_zero, hidx, hdst, hsrc]
  exact ⟨_, hrun, by simp [sccbWrite, write_table_log]⟩

theorem set_AEC_fixed_witness :
    ∃ w1 : World Nat,
      set_AEC sampleSettings (stubBus none 0 0) sampleSensor false [0] (World.start 0) = some w1 ∧
      w1.log = [Event.write 0x21 0x01 0x6a, Event.write 0x21 0x02 0x70,
        Event.write 0x21 0xe4 0x02, Event.write 0x21 0xe5 0x58, Event.write 0x21 0xec 0] :=
  set_AEC_fixed sampleSettings (stubBus none 0 0) sampleSensor 0 [] (World.start 0)
    (0xe4, 0xe5) (0x02, 0x58) (by decide) (by decide) (by decide)

/-! ## C6: a failing software reset -/

/-- C6: if the bus write of `0x80` to `RESET_RELATED` returns a non-zero
status, `reset` returns exactly that status, the log grows by that one write
only (no entry of the default list is applied, no delay), and the sensor
structure, with its Configuration Status, is returned unchanged. -/
theorem reset_fails_on_first_write {σ : Type} (S : Settings) (B : Bus σ) (sensor : sensor_t)
    (w : World σ)
    (hfail : (B.SCCB_Write w.bus sensor.slv_addr S.RESET_RELATED 0x80).1 ≠ 0) :
    reset S B sensor w =
      some ((B.SCCB_Write w.bus sensor.slv_addr S.RESET_RELATED 0x80).1, sensor,
        { bus := (B.SCCB_Write w.bus sensor.slv_addr S.RESET_RELATED 0x80).2,
          log := w.log ++ [Event.write sensor.slv_addr S.RESET_RELATED 0x80] }) := by
  have hret : (write_reg B sensor.slv_addr S.RESET_RELATED 0x80 w).1 ≠ 0 := hfail
  unfold reset
  simp only [hret, ne_eq, not_false_eq_true, if_true]
  rfl

theorem reset_fails_on_first_write_witness :
    reset sampleSettings (stubBus (some 0) (-5) 0) sampleSensor (World.start 0) =
      some (-5, sampleSensor, { bus := 1, log := [Event.write 0x21 0xfe 0x80] }) :=
  reset_fails_on_first_write sampleSettings (stubBus (some 0) (-5) 0) sampleSensor
    (World.start 0) (by decide)

/-! ## C7: the contrast setter -/

/-- On the retentive bus, one call of `set_vertical_flip` leaves `0x10` in
register `0x14` if it held `0x12`, and `0x12` if it held any other byte. -/
theorem set_vertical_flip_step (sensor : sensor_t) (m : Nat → Nat → Nat) (log : List Event)
    (hbyte : m sensor.slv_addr 0x14 < 256) :
    (set_vertical_flip memBus sensor { bus := m, log := log }).bus sensor.slv_addr 0x14 =
      if m sensor.slv_addr 0x14 = 0x12 then 0x10 else 0x12 := by
  have hcast : (((m sensor.slv_addr 0x14 : Nat) : Int) % 256).toNat = m sensor.slv_addr 0x14 := by
    omega
  by_cases h : m sensor.slv_addr 0x14 = 0x12
  · simp [set_vertical_flip, sccbWrite, sccbRead, memBus, h]
  · simp [set_vertical_flip, sccbWrite, sccbRead, memBus, h, hcast]

/-- C8: on a bus whose reads and writes succeed and whose registers retain
the last byte written, `set_vertical_flip` toggles register `0x14`: from
`0x12` one call leaves `0x10` and a second call `0x12` again; from `0x10` one
call leaves `0x12` and a second call `0x10` again; from any byte other than
`0x12` one call leaves `0x12`. -/
theorem set_vertical_flip_toggles (sensor : sensor_t) (m : Nat → Nat → Nat)
    (log : List Event) (hbyte : m sensor.slv_addr 0x14 < 256) :
    (m sensor.slv_addr 0x14 = 0x12 →
      (set_vertical_flip memBus sensor { bus := m, log := log }).bus sensor.slv_addr 0x14 = 0x10 ∧
      (set_vertical_flip memBus sensor
        (set_vertical_flip memBus sensor { bus := m, log := log })).bus sensor.slv_addr 0x14
        = 0x12) ∧
    (m sensor.slv_addr 0x14 = 0x10 →
      (set_vertical_flip memBus sensor { bus := m, log := log }).bus sensor.slv_addr 0x14 = 0x12 ∧
      (set_vertical_flip memBus sensor
        (set_vertical_flip memBus sensor { bus := m, log := log })).bus sensor.slv_addr 0x14
        = 0x10) ∧
    (m sensor.slv_addr 0x14 ≠ 0x12 →
      (set_vertical_flip memBus sensor { bus := m, log := log }).bus sensor.slv_addr 0x14
        = 0x12) := by
  have h1 := set_vertical_flip_step sensor m log hbyte
  have h2 : ∀ v, (set_vertical_flip memBus sensor { bus := m, log := log }).bus
      sensor.slv_addr 0x14 = v → v < 256 →
      (set_vertical_flip memBus sensor
        (set_vertical_flip memBus sensor { bus := m, log := log })).bus sensor.slv_addr 0x14 =
        if v = 0x12 then 0x10 else 0x12 := by
    intro v hv hlt
    have := set_vertical_flip_step sensor
      (set_vertical_flip memBus sensor { bus := m, log := log }).bus
      (set_vertical_flip memBus sensor { bus := m, log := log }).log (by rw [hv]; exact hlt)
    rw [hv] at this
    exact this
  refine ⟨?_, ?_, ?_⟩
  · intro h
    rw [h] at h1
    exact ⟨h1, h2 0x10 h1 (by decide)⟩
  · intro h
    rw [h] at h1
    exact ⟨h1, h2 0x12 h1 (by decide)⟩
  · intro h
    rw [if_neg h] at h1
    exact h1

theorem set_vertical_flip_toggles_witness :
    (set_vertical_flip memBus sampleSensor
        { bus := fun _ _ => 0x12, log := [] }).bus 0x21 0x14 = 0x10 ∧
    (set_vertical_flip memBus sampleSensor
      (set_vertical_flip memBus sampleSensor
        { bus := fun _ _ => 0x12, log := [] })).bus 0x21 0x14 = 0x12 :=
  (set_vertical_flip_toggles sampleSensor (fun _ _ => 0x12) [] (by decide)).1 rfl

/-! ## C9: a failing read inside the read-modify-write -/

/-- C9: for every register, offset, mask and value, if the bus read inside
`set_reg_bits` returns a negative code, `set_reg_bits` returns exactly that
code and the log grows by that read only: no bus write is issued. -/
theorem set_reg_bits_read_fails {σ : Type} (B : Bus σ) (slv reg offset mask value : Nat)
    (w : World σ) (hfail : (B.SCCB_Read w.bus slv reg).1 < 0) :
    set_reg_bits B slv reg offset mask value w =
      some ((B.SCCB_Read w.bus slv reg).1,
        { bus := (B.SCCB_Read w.bus slv reg).2, log := w.log ++ [Event.read slv reg] }) := by
  have hret : (read_reg B slv reg w).1 < 0 := hfail
  unfold set_reg_bits
  simp only [hret, if_true]
  rfl

theorem set_reg_bits_read_fails_witness :
    set_reg_bits (stubBus (some 0) (-3) 0) 0x21 0x14 1 0x03 0x02 (World.start 0) =
      some (-3, { bus := 1, log := [Event.read 0x21 0x14] }) :=
  set_reg_bits_read_fails (stubBus (some 0) (-3) 0) 0x21 0x14 1 0x03 0x02 (World.start 0)
    (by decide)

/-! ## C10: status of the capability-table operations -/

/-- C10: evaluation on a bus stub whose first transaction fails with `-1`.
`reset` stops after that write and returns `-1`; the setters `set_contrast`,
`set_pixformat` and `set_framesize`, which have no status to return, go on
and issue all their remaining writes. -/
theorem setters_drop_write_status :
    reset sampleSettings (stubBus (some 0) (-1) 0) sampleSensor (World.start 0) =
      some (-1, sampleSensor, { bus := 1, log := [Event.write 0x21 0xfe 0x80] }) ∧
    set_contrast (stubBus (some 0) (-1) 0) sampleSensor 5 (World.start 0) =
      { bus := 2, log := [Event.write 0x21 0xfe 0x00, Event.write 0x21 0xb3 5] } ∧
    set_pixformat (stubBus (some 0) (-1) 0) sampleSensor output_format_t.RGB565 (World.start 0) =
      { bus := 3, log := [Event.write 0x21 0xfe 0x00, Event.write 0x21 0xfe 0x00,
                          Event.write 0x21 0x24 0xa6] } ∧
    set_framesize sampleSettings (stubBus (some 0) (-1) 0) sampleSensor resolution_t.CIF
        (World.start 0) =
      { bus := 3, log := [Event.write 0x21 0xfe 0x00, Event.write 0x21 0x46 0x80,
                          Event.write 0x21 0x47 0x00] } := by
  decide

/-! ## C12: the pixel-format setter -/

/-- C13: for every sensor structure, `gc0308_init` returns `0`, leaves the
world (bus and log) as it is, binds the `reset`, `init_status`,
`set_pixformat`, `set_framesize` and `set_contrast` slots to this driver's
functions, and leaves `slv_addr`, the Configuration Status and the other
slots as they were. -/
theorem gc0308_init_binds {σ : Type} (sensor : sensor_t) (w : World σ) :
    (gc0308_init sensor w).1 = 0 ∧
    (gc0308_init sensor w).2.2 = w ∧
    (gc0308_init sensor w).2.1.reset = Slot.gc0308_reset ∧
    (gc0308_init sensor w).2.1.init_status = Slot.gc0308_init_status ∧
    (gc0308_init sensor w).2.1.set_pixformat = Slot.gc0308_set_pixformat ∧
    (gc0308_init sensor w).2.1.set_framesize = Slot.gc0308_set_framesize ∧
    (gc0308_init sensor w).2.1.set_contrast = Slot.gc0308_set_contrast ∧
    (gc0308_init sensor w).2.1.slv_addr = sensor.slv_addr ∧
    (gc0308_init sensor w).2.1.status = sensor.status ∧
    (gc0308_init sensor w).2.1.other_slots = sensor.other_slots := by
  simp [gc0308_init]

/-! ## Outcome of the sequencer on a terminated list -/

/-- Success of the writes of a concatenation splits at the seam. -/
theorem writesSucceed_append {σ : Type} (S : Settings) (B : Bus σ) (slv : Nat)
    (a b : List (Nat × Nat)) :
    ∀ s : σ, writesSucceed S B slv (a ++ b) s ↔
      writesSucceed S B slv a s ∧ writesSucceed S B slv b (busAfter S B slv a s) := by
  induction a with
  | nil => intro s; simp [writesSucceed, busAfter]
  | cons e a ih =>
    intro s
    by_cases hd : e.1 = S.REG_DLY
    · simp [writesSucceed, busAfter, hd, ih]
    · simp [writesSucceed, busAfter, hd, ih, and_assoc]

/-- Either every write of a list succeeds, or the list splits at its first
failing ordinary entry. -/
theorem writesSucceed_or_fails {σ : Type} (S : Settings) (B : Bus σ) (slv : Nat)
    (regs : List (Nat × Nat)) :
    ∀ s : σ, writesSucceed S B slv regs s ∨
      ∃ pre1 e rest1, regs = pre1 ++ e :: rest1 ∧ writesSucceed S B slv pre1 s ∧
        e.1 ≠ S.REG_DLY ∧
        (B.SCCB_Write (busAfter S B slv pre1 s) slv e.1 (e.2 % 256)).1 ≠ 0 := by
  induction regs with
  | nil => intro s; left; simp [writesSucceed]
  | cons e regs ih =>
    intro s
    by_cases hd : e.1 = S.REG_DLY
    · rcases ih s with h | ⟨pre1, e1, rest1, heq, hs, hd1, hf⟩
      · left; simpa [writesSucceed, hd] using h
      · right
        refine ⟨e :: pre1, e1, rest1, by simp [heq], by simpa [writesSucceed, hd] using hs, hd1, ?_⟩
        simpa [busAfter, hd] using hf
    · by_cases hw : (B.SCCB_Write s slv e.1 (e.2 % 256)).1 = 0
      · rcases ih (B.SCCB_Write s slv e.1 (e.2 % 256)).2 with h | ⟨pre1, e1, rest1, heq, hs, hd1, hf⟩
        · left; simpa [writesSucceed, hd] using ⟨hw, h⟩
        · right
          refine ⟨e :: pre1, e1, rest1, by simp [heq],
            by simpa [writesSucceed, hd] using ⟨hw, hs⟩, hd1, ?_⟩
          simpa [busAfter, hd] using hf
      · right
        exact ⟨[], e, regs, rfl, by simp [writesSucceed], hd, by simpa [busAfter] using hw⟩

/-- After a prefix whose writes succeed, an ordinary entry whose write fails
ends the loop with that write's status, whatever follows. -/
theorem write_regs_loop_fails {σ : Type} (S : Settings) (B : Bus σ) (slv : Nat)
    (pre rest : List (Nat × Nat)) (e : Nat × Nat) (w : World σ)
    (hpre : ∀ x ∈ pre, x.1 ≠ S.REGLIST_TAIL) (hsucc : writesSucceed S B slv pre w.bus)
    (ht : e.1 ≠ S.REGLIST_TAIL) (hd : e.1 ≠ S.REG_DLY)
    (hfail : (B.SCCB_Write (busAfter S B slv pre w.bus) slv e.1 (e.2 % 256)).1 ≠ 0) :
    write_regs_loop S B slv (pre ++ e :: rest) 0 w =
      some ((B.SCCB_Write (busAfter S B slv pre w.bus) slv e.1 (e.2 % 256)).1,
        { bus := (B.SCCB_Write (busAfter S B slv pre w.bus) slv e.1 (e.2 % 256)).2,
          log := w.log ++ pre.map (entryEvent S slv) ++ [Event.write slv e.1 (e.2 % 256)] }) := by
  rw [write_regs_loop_consumes S B slv pre _ w hpre hsucc]
  have hfail1 : (write_reg B slv e.1 e.2
      { bus := busAfter S B slv pre w.bus, log := w.log ++ pre.map (entryEvent S slv) }).1 ≠ 0 :=
    hfail
  have step : write_regs_loop S B slv (e :: rest) 0
      { bus := busAfter S B slv pre w.bus, log := w.log ++ pre.map (entryEvent S slv) } =
      write_regs_loop S B slv rest
        (write_reg B slv e.1 e.2
          { bus := busAfter S B slv pre w.bus, log := w.log ++ pre.map (entryEvent S slv) }).1
        (write_reg B slv e.1 e.2
          { bus := busAfter S B slv pre w.bus, log := w.log ++ pre.map (entryEvent S slv) }).2 := by
    simp [write_regs_loop, ht, hd]
  rw [step, write_regs_loop_stop S B slv rest _ _ hfail1]
  simp [write_reg, sccbWrite]

/-- On a list with an END entry `write_regs` returns, and its result is one
of two: status `0` after the actions of all entries before END, or the status
of the first failing write, with the log ending at that write.  The result
does not depend on the END entry's value nor on what follows it. -/
theorem write_regs_outcome {σ : Type} (S : Settings) (B : Bus σ) (slv : Nat)
    (pre : List (Nat × Nat)) (w : World σ) (hpre : ∀ e ∈ pre, e.1 ≠ S.REGLIST_TAIL) :
    (writesSucceed S B slv pre w.bus ∧
      ∀ x rest, write_regs S B slv (pre ++ (S.REGLIST_TAIL, x) :: rest) w =
        some (0, { bus := busAfter S B slv pre w.bus,
                   log := w.log ++ pre.map (entryEvent S slv) })) ∨
    (∃ pre1 e rest1, pre = pre1 ++ e :: rest1 ∧ writesSucceed S B slv pre1 w.bus ∧
      e.1 ≠ S.REG_DLY ∧
      (B.SCCB_Write (busAfter S B slv pre1 w.bus) slv e.1 (e.2 % 256)).1 ≠ 0 ∧
      ∀ x rest, write_regs S B slv (pre ++ (S.REGLIST_TAIL, x) :: rest) w =
        some ((B.SCCB_Write (busAfter S B slv pre1 w.bus) slv e.1 (e.2 % 256)).1,
          { bus := (B.SCCB_Write (busAfter S B slv pre1 w.bus) slv e.1 (e.2 % 256)).2,
            log := w.log ++ pre1.map (entryEvent S slv) ++
              [Event.write slv e.1 (e.2 % 256)] })) := by
  rcases writesSucceed_or_fails S B slv pre w.bus with h | ⟨pre1, e, rest1, heq, hs, hd, hf⟩
  · left
    refine ⟨h, fun x rest => ?_⟩
    unfold write_regs
    rw [write_regs_loop_consumes S B slv pre _ w hpre h, write_regs_loop_tail]
  · right
    refine ⟨pre1, e, rest1, heq, hs, hd, hf, fun x rest => ?_⟩
    have hpre1 : ∀ y ∈ pre1, y.1 ≠ S.REGLIST_TAIL := fun y hy =>
      hpre y (by rw [heq]; exact List.mem_append_left _ hy)
    have ht : e.1 ≠ S.REGLIST_TAIL := hpre e (by rw [heq]; simp)
    unfold write_regs
    rw [heq, List.append_assoc, List.cons_append]
    exact write_regs_loop_fails S B slv pre1 _ e w hpre1 hs ht hd hf

/-- A log has at most as many writes as actions. -/
theorem writesOf_length_le (l : List Event) : (writesOf l).length ≤ l.length := by
  induction l with
  | nil => simp [writesOf]
  | cons ev l ih =>
    cases ev <;> simp [writesOf] <;> omega

/-- The writes of a concatenation of logs. -/
theorem writesOf_append (a b : List Event) : writesOf (a ++ b) = writesOf a ++ writesOf b := by
  induction a with
  | nil => simp [writesOf]
  | cons ev a ih => cases ev <;> simp [writesOf, ih]

/-! ## C16: termination and resource bound of the sequencer -/

/-- C16: for every register list with an END entry and every bus stub,
`write_regs` returns a result; the result is the same whatever the END
entry's value and whatever follows it (also nothing), so no entry after the
first END is inspected; and the log grows by a list of actions with at most
as many bus writes as there are entries before the END entry. -/
theorem write_regs_terminates {σ : Type} (S : Settings) (B : Bus σ) (slv : Nat)
    (pre : List (Nat × Nat)) (w : World σ) (hpre : ∀ e ∈ pre, e.1 ≠ S.REGLIST_TAIL) :
    ∃ (ret : Int) (w1 : World σ) (l : List Event),
      (∀ x rest, write_regs S B slv (pre ++ (S.REGLIST_TAIL, x) :: rest) w = some (ret, w1)) ∧
      w1.log = w.log ++ l ∧ (writesOf l).length ≤ pre.length := by
  rcases write_regs_outcome S B slv pre w hpre with ⟨_, hrun⟩ | ⟨pre1, e, rest1, heq, _, _, _, hrun⟩
  · refine ⟨_, _, pre.map (entryEvent S slv), hrun, rfl, ?_⟩
    calc (writesOf (pre.map (entryEvent S slv))).length
        ≤ (pre.map (entryEvent S slv)).length := writesOf_length_le _
      _ = pre.length := List.length_map _ _
  · refine ⟨_, _, pre1.map (entryEvent S slv) ++ [Event.write slv e.1 (e.2 % 256)], hrun,
      by simp, ?_⟩
    calc (writesOf (pre1.map (entryEvent S slv) ++ [Event.write slv e.1 (e.2 % 256)])).length
        ≤ (pre1.map (entryEvent S slv) ++ [Event.write slv e.1 (e.2 % 256)]).length :=
          writesOf_length_le _
      _ = pre1.length + 1 := by simp
      _ ≤ pre.length := by rw [heq]; simp

theorem write_regs_terminates_witness :
    ∃ (ret : Int) (w1 : World Nat) (l : List Event),
      (∀ x rest, write_regs sampleSettings (stubBus (some 1) (-7) 0) 0x21
        ([(0xfe, 0x00), (0x0f, 0x00), (0xffff, 20), (0x01, 0x6a)] ++
          (sampleSettings.REGLIST_TAIL, x) :: rest) (World.start 0) = some (ret, w1)) ∧
      w1.log = (World.start 0 : World Nat).log ++ l ∧
      (writesOf l).length ≤ [(0xfe, 0x00), (0x0f, 0x00), (0xffff, 20), (0x01, 0x6a)].length :=
  write_regs_terminates sampleSettings (stubBus (some 1) (-7) 0) 0x21
    [(0xfe, 0x00), (0x0f, 0x00), (0xffff, 20), (0x01, 0x6a)] (World.start 0) (by decide)

/-! ## C11: status and writes of `reset` -/

/-- When the software-reset write succeeds, `reset` is the settle delay, the
default list, and a second settle delay if the list was applied with status `0`. -/
theorem reset_after_first_write {σ : Type} (S : Settings) (B : Bus σ) (sensor : sensor_t)
    (w : World σ) (hok : (B.SCCB_Write w.bus sensor.slv_addr S.RESET_RELATED 0x80).1 = 0) :
    reset S B sensor w =
      match write_regs S B sensor.slv_addr S.GC0308_DEFAULT_CONFIG
          { bus := (B.SCCB_Write w.bus sensor.slv_addr S.RESET_RELATED 0x80).2,
            log := w.log ++ [Event.write sensor.slv_addr S.RESET_RELATED 0x80,
              Event.delay (100 / S.portTICK_PERIOD_MS)] } with
      | none => none
      | some (ret, w2) =>
        if ret = 0 then some (ret, sensor, vTaskDelay (100 / S.portTICK_PERIOD_MS) w2)
        else some (ret, sensor, w2) := by
  have hret : (write_reg B sensor.slv_addr S.RESET_RELATED 0x80 w).1 = 0 := hok
  unfold reset
  simp only [hret, ne_eq, not_true_eq_false, if_false]
  simp [write_reg, sccbWrite, vTaskDelay]

/-- Narrowing to 8 bits leaves a list of byte-valued entries as it is. -/
theorem map_narrow_of_bytes (l : List (Nat × Nat)) (h : ∀ e ∈ l, e.2 < 256) :
    l.map (fun e => (e.1, e.2 % 256)) = l := by
  induction l with
  | nil => rfl
  | cons e l ih =>
    have he : e.2 % 256 = e.2 := Nat.mod_eq_of_lt (h e (List.mem_cons_self _ _))
    have hl : ∀ x ∈ l, x.2 < 256 := fun x hx => h x (List.mem_cons_of_mem _ hx)
    simp [he, ih hl]

/-- C11: for a default register list with an END entry, `reset` returns a
status `ret` with the sensor structure as it was, and `ret = 0` if and only if
the software-reset write (`0x80` to `RESET_RELATED`) and every write of the
default list succeed.  On success the bus writes are the reset write followed
by the ordinary entries of the default list before END, in order (each with
the low 8 bits of its value, the entry itself when its value is a byte).  On
failure `ret` is the status of the first failing write, and the log ends with
that write. -/
theorem reset_status {σ : Type} (S : Settings) (B : Bus σ) (sensor : sensor_t) (w : World σ)
    (pre rest : List (Nat × Nat)) (x : Nat)
    (hcfg : S.GC0308_DEFAULT_CONFIG = pre ++ (S.REGLIST_TAIL, x) :: rest)
    (hpre : ∀ e ∈ pre, e.1 ≠ S.REGLIST_TAIL) :
    ∃ (ret : Int) (w1 : World σ) (l : List Event),
      reset S B sensor w = some (ret, sensor, w1) ∧ w1.log = w.log ++ l ∧
      (ret = 0 ↔
        (B.SCCB_Write w.bus sensor.slv_addr S.RESET_RELATED 0x80).1 = 0 ∧
        writesSucceed S B sensor.slv_addr pre
          (B.SCCB_Write w.bus sensor.slv_addr S.RESET_RELATED 0x80).2) ∧
      (ret = 0 →
        writesOf l = (S.RESET_RELATED, 0x80) ::
          (pre.filter (fun e => decide (e.1 ≠ S.REG_DLY))).map (fun e => (e.1, e.2 % 256))) ∧
      (ret = 0 → (∀ e ∈ pre, e.2 < 256) →
        writesOf l = (S.RESET_RELATED, 0x80) ::
          pre.filter (fun e => decide (e.1 ≠ S.REG_DLY))) ∧
      (ret ≠ 0 →
        (ret = (B.SCCB_Write w.bus sensor.slv_addr S.RESET_RELATED 0x80).1 ∧
          l = [Event.write sensor.slv_addr S.RESET_RELATED 0x80]) ∨
        ((B.SCCB_Write w.bus sensor.slv_addr S.RESET_RELATED 0x80).1 = 0 ∧
          ∃ pre1 e rest1, pre = pre1 ++ e :: rest1 ∧
            writesSucceed S B sensor.slv_addr pre1
              (B.SCCB_Write w.bus sensor.slv_addr S.RESET_RELATED 0x80).2 ∧
            e.1 ≠ S.REG_DLY ∧
            ret = (B.SCCB_Write
              (busAfter S B sensor.slv_addr pre1
                (B.SCCB_Write w.bus sensor.slv_addr S.RESET_RELATED 0x80).2)
              sensor.slv_addr e.1 (e.2 % 256)).1 ∧
            l = [Event.write sensor.slv_addr S.RESET_RELATED 0x80,
                Event.delay (100 / S.portTICK_PERIOD_MS)] ++
              pre1.map (entryEvent S sensor.slv_addr) ++
              [Event.write sensor.slv_addr e.1 (e.2 % 256)])) := by
  by_cases h1 : (B.SCCB_Write w.bus sensor.slv_addr S.RESET_RELATED 0x80).1 = 0
  · rcases write_regs_outcome S B sensor.slv_addr pre
        { bus := (B.SCCB_Write w.bus sensor.slv_addr S.RESET_RELATED 0x80).2,
          log := w.log ++ [Event.write sensor.slv_addr S.RESET_RELATED 0x80,
            Event.delay (100 / S.portTICK_PERIOD_MS)] } hpre with
      ⟨hs, hrun⟩ | ⟨pre1, e, rest1, heq, hs, hd, hf, hrun⟩
    · refine ⟨0,
        { bus := busAfter S B sensor.slv_addr pre
            (B.SCCB_Write w.bus sensor.slv_addr S.RESET_RELATED 0x80).2,
          log := w.log ++ ([Event.write sensor.slv_addr S.RESET_RELATED 0x80,
            Event.delay (100 / S.portTICK_PERIOD_MS)] ++ pre.map (entryEvent S sensor.slv_addr) ++
            [Event.delay (100 / S.portTICK_PERIOD_MS)]) },
        [Event.write sensor.slv_addr S.RESET_RELATED 0x80,
          Event.delay (100 / S.portTICK_PERIOD_MS)] ++ pre.map (entryEvent S sensor.slv_addr) ++
          [Event.delay (100 / S.portTICK_PERIOD_MS)], ?_, rfl, ?_, ?_, ?_, ?_⟩
      · rw [reset_after_first_write S B sensor w h1, hcfg, hrun x rest]
        simp [vTaskDelay]
      · simp [h1, hs]
      · intro _
        simp [writesOf_append, writesOf, writesOf_entryEvents]
      · intro _ hb
        have hbf : ∀ e ∈ pre.filter (fun e => decide (e.1 ≠ S.REG_DLY)), e.2 < 256 :=
          fun e he => hb e (List.mem_of_mem_filter he)
        have hwr : writesOf ([Event.write sensor.slv_addr S.RESET_RELATED 0x80,
            Event.delay (100 / S.portTICK_PERIOD_MS)] ++ pre.map (entryEvent S sensor.slv_addr) ++
            [Event.delay (100 / S.portTICK_PERIOD_MS)]) =
            (S.RESET_RELATED, 0x80) ::
              (pre.filter (fun e => decide (e.1 ≠ S.REG_DLY))).map (fun e => (e.1, e.2 % 256)) := by
          simp [writesOf_append, writesOf, writesOf_entryEvents]
        rw [hwr, map_narrow_of_bytes _ hbf]
      · intro h0; exact absurd rfl h0
    · have hns : ¬ writesSucceed S B sensor.slv_addr pre
          (B.SCCB_Write w.bus sensor.slv_addr S.RESET_RELATED 0x80).2 := by
        intro hall
        rw [heq, writesSucceed_append] at hall
        have := hall.2
        simp only [writesSucceed, hd, if_false] at this
        exact hf this.1
      refine ⟨(B.SCCB_Write
          (busAfter S B sensor.slv_addr pre1
            (B.SCCB_Write w.bus sensor.slv_addr S.RESET_RELATED 0x80).2)
          sensor.slv_addr e.1 (e.2 % 256)).1,
        { bus := (B.SCCB_Write
            (busAfter S B sensor.slv_addr pre1
              (B.SCCB_Write w.bus sensor.slv_addr S.RESET_RELATED 0x80).2)
            sensor.slv_addr e.1 (e.2 % 256)).2,
          log := w.log ++ ([Event.write sensor.slv_addr S.RESET_RELATED 0x80,
            Event.delay (100 / S.portTICK_PERIOD_MS)] ++ pre1.map (entryEvent S sensor.slv_addr) ++
            [Event.write sensor.slv_addr e.1 (e.2 % 256)]) },
        [Event.write sensor.slv_addr S.RESET_RELATED 0x80,
          Event.delay (100 / S.portTICK_PERIOD_MS)] ++ pre1.map (entryEvent S sensor.slv_addr) ++
          [Event.write sensor.slv_addr e.1 (e.2 % 256)], ?_, rfl, ?_, ?_, ?_, ?_⟩
      · rw [reset_after_first_write S B sensor w h1, hcfg, hrun x rest]
        simp [hf]
      · constructor
        · intro h0; exact absurd h0 hf
        · intro hboth; exact absurd hboth.2 hns
      · intro h0; exact absurd h0 hf
      · intro h0; exact absurd h0 hf
      · intro _
        right
        exact ⟨h1, pre1, e, rest1, heq, hs, hd, rfl, rfl⟩
  · have hret : (write_reg B sensor.slv_addr S.RESET_RELATED 0x80 w).1 ≠ 0 := h1
    refine ⟨(B.SCCB_Write w.bus sensor.slv_addr S.RESET_RELATED 0x80).1,
      { bus := (B.SCCB_Write w.bus sensor.slv_addr S.RESET_RELATED 0x80).2,
        log := w.log ++ [Event.write sensor.slv_addr S.RESET_RELATED 0x80] },
      [Event.write sensor.slv_addr S.RESET_RELATED 0x80], ?_, rfl, ?_, ?_, ?_, ?_⟩
    · unfold reset
      simp only [hret, ne_eq, not_false_eq_true, if_true]
      rfl
    · constructor
      · intro h0; exact absurd h0 h1
      · intro hboth; exact absurd hboth.1 h1
    · intro h0; exact absurd h0 h1
    · intro h0; exact absurd h0 h1
    · intro _
      left
      exact ⟨rfl, rfl⟩

theorem reset_status_witness :
    ∃ (w1 : World Nat),
      reset sampleSettings (stubBus none 0 0) sampleSensor (World.start 0)
        = some (0, sampleSensor, w1) ∧
      writesOf w1.log = [(0xfe, 0x80), (0xfe, 0x00), (0x0f, 0x00), (0x01, 0x6a)] := by
  obtain ⟨ret, w1, l, hrun, hlog, hiff, _, hwrites, _⟩ :=
    reset_status sampleSettings (stubBus none 0 0) sampleSensor (World.start 0)
      [(0xfe, 0x00), (0x0f, 0x00), (0xffff, 20), (0x01, 0x6a)] [] 0x00 rfl (by decide)
  have h0 : ret = 0 :=
    hiff.mpr ⟨by decide, by simp [writesSucceed, sampleSettings, stubBus, World.start]⟩
  subst h0
  refine ⟨w1, hrun, ?_⟩
  rw [hlog, writesOf_append, hwrites rfl (by decide)]
  decide

/-! ## C14: applying a register list twice -/

/-- On the retentive bus, after the writes of a list a register of the
addressed device holds the byte of the last ordinary entry addressed to it,
or its old content if there is none; other devices are untouched. -/
theorem busAfter_memBus (S : Settings) (slv : Nat) (regs : List (Nat × Nat)) :
    ∀ (m : Nat → Nat → Nat) (s r : Nat),
      busAfter S memBus slv regs m s r =
        if s = slv then (lastWrite S r regs).getD (m s r) else m s r := by
  induction regs with
  | nil => intro m s r; simp [busAfter, lastWrite]
  | cons e regs ih =>
    intro m s r
    by_cases hd : e.1 = S.REG_DLY
    · rw [busAfter, if_pos hd, ih]
      cases hl : lastWrite S r regs <;> simp [lastWrite, hl, hd]
    · rw [busAfter, if_neg hd, ih]
      by_cases hs : s = slv
      · cases hl : lastWrite S r regs with
        | some v => simp [lastWrite, hl, hs]
        | none =>
          by_cases hr : e.1 = r
          · subst hr
            simp [lastWrite, hl, hs, hd, memBus]
          · have hr2 : ¬ r = e.1 := fun h => hr h.symm
            simp [lastWrite, hl, hs, hd, hr, hr2, memBus]
      · simp [hs, memBus]

/-- C14: on a bus whose writes all succeed and whose registers retain the
last byte written, for every register list with an END entry and every initial
register state, `write_regs` applied twice in succession returns `0` both
times and leaves every register with the content it had after the first
application. -/
theorem write_regs_twice (S : Settings) (slv : Nat) (pre rest : List (Nat × Nat)) (x : Nat)
    (m : Nat → Nat → Nat) (log : List Event) (hpre : ∀ e ∈ pre, e.1 ≠ S.REGLIST_TAIL) :
    ∃ w1 w2 : World (Nat → Nat → Nat),
      write_regs S memBus slv (pre ++ (S.REGLIST_TAIL, x) :: rest) { bus := m, log := log }
        = some (0, w1) ∧
      write_regs S memBus slv (pre ++ (S.REGLIST_TAIL, x) :: rest) w1 = some (0, w2) ∧
      ∀ s r, w2.bus s r = w1.bus s r := by
  have hok : ∀ (s : Nat → Nat → Nat) (a r v : Nat), (memBus.SCCB_Write s a r v).1 = 0 :=
    fun _ _ _ _ => rfl
  have hrun : ∀ w : World (Nat → Nat → Nat),
      write_regs S memBus slv (pre ++ (S.REGLIST_TAIL, x) :: rest) w =
        some (0, { bus := busAfter S memBus slv pre w.bus,
                   log := w.log ++ pre.map (entryEvent S slv) }) := by
    intro w
    unfold write_regs
    rw [write_regs_loop_consumes S memBus slv pre _ w hpre
      (writesSucceed_of_healthy S memBus slv hok pre _), write_regs_loop_tail]
  refine ⟨_, _, hrun _, hrun _, ?_⟩
  intro s r
  simp only [busAfter_memBus]
  by_cases hs : s = slv
  · cases hl : lastWrite S r pre <;> simp [hs]
  · simp [hs]

theorem write_regs_twice_witness :
    ∃ w1 w2 : World (Nat → Nat → Nat),
      write_regs sampleSettings memBus 0x21 [(0xfe, 0x00), (0x0f, 0x1a), (0x0000, 0x00)]
        { bus := fun _ _ => 0x55, log := [] } = some (0, w1) ∧
      write_regs sampleSettings memBus 0x21 [(0xfe, 0x00), (0x0f, 0x1a), (0x0000, 0x00)] w1
        = some (0, w2) ∧
      ∀ s r, w2.bus s r = w1.bus s r :=
  write_regs_twice sampleSettings 0x21 [(0xfe, 0x00), (0x0f, 0x1a)] [] 0x00 (fun _ _ => 0x55) []
    (by decide)

/-! ## C15: the row index of the exposure table -/

end GC0308
